import Mathlib

/-!
Verification of the solana-wallet-tracker event-to-alert pipeline.

The definitions below are shallow embeddings of the TypeScript sources:
  * Window store        — src/services/redis.service.ts (Lua scripts over a Redis ZSET)
  * Price oracle        — src/services/price.service.ts
  * Event parser        — src/services/webhook.service.ts (parseTransaction)
  * Alert engine        — src/services/webhook.service.ts (processTransfer)
  * Ingress adapter     — src/index.ts (POST /webhook single-payload handler)
  * Sequential sells    — counters from src/services/redis.service.ts; the engine rule
                          is modelled from the specification (see its doc comment).

Numbers: JavaScript numbers are modelled as rationals, unix timestamps as integers.
-/

namespace Tracker

/-- Direction of a transfer: the TypeScript union type 'buy' | 'sell'. -/
inductive Dir where
  | buy
  | sell
deriving DecidableEq, Repr

/-! ## Window store (RedisService.addAmountToWindow / getCumulativeAmount)

A Redis sorted set maps members to scores.  The Lua script of addAmountToWindow
stores member `timestamp .. ':' .. amount` with score `timestamp`; the member
string determines the pair (timestamp, amount) and vice versa, so the sorted set
is modelled as a finite set of (score, amount) pairs.  ZADD of an existing member
leaves the set unchanged (the score written is the same timestamp). -/

/-- One member of the per-(token, direction) sorted set: (timestamp, usd amount),
the pair encoded by the member string `timestamp .. ':' .. amount`. -/
abbrev WindowEntry := ℤ × ℚ

/-- The contents of one per-(token, direction) sorted set. -/
abbrev WindowState := Finset WindowEntry

/-- ZREMRANGEBYSCORE key -inf windowStart: removes every member whose score lies in
the inclusive range [-inf, windowStart], keeping exactly the members with
windowStart < score. -/
def zremRangeUpTo (windowStart : ℤ) (s : WindowState) : WindowState :=
  s.filter (fun e => windowStart < e.1)

/-- The summation loop of the Lua script: ZRANGEBYSCORE key windowStart +inf returns the
members with windowStart ≤ score (inclusive), and the loop adds up their parsed amounts. -/
def windowSum (windowStart : ℤ) (s : WindowState) : ℚ :=
  Finset.sum (s.filter (fun e => windowStart ≤ e.1)) (fun e => e.2)

/-- RedisService.addAmountToWindow: the atomic Lua script.  windowStart is
timestamp - swapTimeWindowSeconds; the script (1) removes entries with score in
[-inf, windowStart], (2) ZADDs member (timestamp, amount) at score timestamp,
(3) refreshes the key TTL (no effect on contents here), and (4) returns the sum of the
amounts of the members with score in [windowStart, +inf).  Result: (new set, returned sum). -/
def addAmountToWindow (windowSeconds : ℤ) (s : WindowState) (usdAmount : ℚ)
    (timestamp : ℤ) : WindowState × ℚ :=
  let windowStart := timestamp - windowSeconds
  let s1 := zremRangeUpTo windowStart s
  let s2 := insert (timestamp, usdAmount) s1
  (s2, windowSum windowStart s2)

/-- RedisService.getCumulativeAmount: the read-only Lua script, with
windowStart = now - swapTimeWindowSeconds (the configured window, not a parameter):
removes entries with score in [-inf, windowStart] and returns the sum of the amounts
with score in [windowStart, +inf). -/
def getCumulativeAmount (windowSeconds : ℤ) (s : WindowState) (now : ℤ) :
    WindowState × ℚ :=
  let windowStart := now - windowSeconds
  let s1 := zremRangeUpTo windowStart s
  (s1, windowSum windowStart s1)

/-- A sequence of addAmountToWindow calls on one (token, direction) key, starting from an
empty key; returns the final set together with the sum returned by the last call
(0 when the sequence is empty).  Each list element is (usdAmount, timestamp). -/
def runWindow (windowSeconds : ℤ) (calls : List (ℚ × ℤ)) : WindowState × ℚ :=
  calls.foldl (fun acc c => addAmountToWindow windowSeconds acc.1 c.1 c.2) (∅, 0)

/-- The set of distinct (timestamp, amount) pairs of a call sequence — the members that
the member encoding `timestamp .. ':' .. amount` can ever distinguish. -/
def pairsOf (calls : List (ℚ × ℤ)) : Finset WindowEntry :=
  (calls.map (fun c => (c.2, c.1))).toFinset

lemma pairsOf_cons (c : ℚ × ℤ) (l : List (ℚ × ℤ)) :
    pairsOf (c :: l) = insert (c.2, c.1) (pairsOf l) := by
  simp [pairsOf]

/-- After a non-decreasing-timestamp call sequence ending at time ts, the sorted set holds
exactly the distinct inserted pairs that are strictly inside the last window, together with
the strictly-inside part of whatever the key held initially. -/
lemma runWindow_state_concat (w : ℤ) (hw : 0 < w) :
    ∀ (calls : List (ℚ × ℤ)) (init : WindowState × ℚ) (a : ℚ) (ts : ℤ),
      ((calls ++ [(a, ts)]).map Prod.snd).Sorted (· ≤ ·) →
      ((calls ++ [(a, ts)]).foldl
          (fun acc c => addAmountToWindow w acc.1 c.1 c.2) init).1
        = (init.1 ∪ pairsOf (calls ++ [(a, ts)])).filter (fun e => ts - w < e.1) := by
  intro calls
  induction calls with
  | nil =>
    intro init a ts _
    ext e
    simp only [List.nil_append, List.foldl_cons, List.foldl_nil, addAmountToWindow,
      zremRangeUpTo, pairsOf, List.map_cons, List.map_nil, List.toFinset_cons,
      List.toFinset_nil, insert_emptyc_eq, Finset.mem_insert, Finset.mem_filter,
      Finset.mem_union, Finset.mem_singleton]
    constructor
    · rintro (rfl | ⟨he, hgt⟩)
      · exact ⟨Or.inr rfl, by omega⟩
      · exact ⟨Or.inl he, hgt⟩
    · rintro ⟨he | rfl, hgt⟩
      · exact Or.inr ⟨he, hgt⟩
      · exact Or.inl rfl
  | cons c cs ih =>
    intro init a ts hsorted
    have hsorted' : (((c :: cs) ++ [(a, ts)]).map Prod.snd).Sorted (· ≤ ·) := hsorted
    rw [List.cons_append, List.map_cons, List.sorted_cons] at hsorted'
    have hts : c.2 ≤ ts := by
      refine hsorted'.1 ts ?_
      simp
    have := ih (addAmountToWindow w init.1 c.1 c.2) a ts hsorted'.2
    rw [List.cons_append, List.foldl_cons]
    rw [this]
    ext e
    simp only [addAmountToWindow, zremRangeUpTo, pairsOf, List.cons_append, List.map_cons,
      List.toFinset_cons, Finset.mem_filter, Finset.mem_union, Finset.mem_insert]
    constructor
    · rintro ⟨(rfl | ⟨he, _⟩) | hp, hgt⟩
      · exact ⟨Or.inr (Or.inl rfl), hgt⟩
      · exact ⟨Or.inl he, hgt⟩
      · exact ⟨Or.inr (Or.inr hp), hgt⟩
    · rintro ⟨he | rfl | hp, hgt⟩
      · exact ⟨Or.inl (Or.inr ⟨he, by omega⟩), hgt⟩
      · exact ⟨Or.inl (Or.inl rfl), hgt⟩
      · exact ⟨Or.inr hp, hgt⟩

/-- C1 counterexample.  Two insertions with equal timestamp and equal usd_amount produce the
same member string `1000:100`, so the second ZADD does not create a second entry: the read
returns 100, while the claim (no collision, sum of all inserted amounts with timestamp in
the inclusive window) predicts 200. -/
theorem addAmountToWindow_equal_pairs_collide :
    (runWindow 3600 [(100, 1000), (100, 1000)]).2 = 100 ∧
    (([((100 : ℚ), (1000 : ℤ)), (100, 1000)].filter
        (fun c => decide (1000 - 3600 ≤ c.2 ∧ c.2 ≤ 1000))).map Prod.fst).sum = 200 ∧
    (100 : ℚ) ≠ 200 := by
  refine ⟨?_, by norm_num, by norm_num⟩
  simp [runWindow, addAmountToWindow, windowSum, zremRangeUpTo, Finset.filter_insert,
    Finset.filter_singleton]

/-- C1 amended.  For every in-order (non-decreasing timestamps) call sequence on one
(token, direction) key with a positive window, the cumulative returned by the final call at
time ts equals the sum over the distinct (timestamp, amount) pairs inserted so far whose
timestamp is strictly greater than ts - window_seconds: collisions happen exactly for equal
(timestamp, amount) pairs, and the boundary timestamp ts - window_seconds is evicted by the
inclusive ZREMRANGEBYSCORE before the sum, hence not counted. -/
theorem addAmountToWindow_cumulative_amended (w : ℤ) (calls : List (ℚ × ℤ)) (a : ℚ) (ts : ℤ)
    (hw : 0 < w) (hsorted : ((calls ++ [(a, ts)]).map Prod.snd).Sorted (· ≤ ·)) :
    (runWindow w (calls ++ [(a, ts)])).2
      = Finset.sum ((pairsOf (calls ++ [(a, ts)])).filter (fun e => ts - w < e.1))
          (fun e => e.2) := by
  have hstate := runWindow_state_concat w hw calls (∅, 0) a ts hsorted
  have hsplit : runWindow w (calls ++ [(a, ts)])
      = addAmountToWindow w (runWindow w calls).1 a ts := by
    simp [runWindow, List.foldl_append]
  have hstate' : (addAmountToWindow w (runWindow w calls).1 a ts).1
      = (pairsOf (calls ++ [(a, ts)])).filter (fun e => ts - w < e.1) := by
    rw [← hsplit]
    simpa [runWindow] using hstate
  rw [hsplit]
  show windowSum (ts - w) (addAmountToWindow w (runWindow w calls).1 a ts).1
      = Finset.sum ((pairsOf (calls ++ [(a, ts)])).filter (fun e => ts - w < e.1))
          (fun e => e.2)
  rw [hstate']
  unfold windowSum
  rw [Finset.filter_filter]
  refine Finset.sum_congr (Finset.filter_congr ?_) (fun _ _ => rfl)
  intro e _
  constructor
  · rintro ⟨h1, _⟩; exact h1
  · intro h1; exact ⟨h1, by omega⟩

/-- Witness for the amended C1 theorem at the concrete sequence
add(100, ts=1000); add(50, ts=1200) with window_seconds = 3600. -/
theorem addAmountToWindow_cumulative_amended_witness :
    (runWindow 3600 ([((100 : ℚ), (1000 : ℤ))] ++ [(50, 1200)])).2
      = Finset.sum ((pairsOf ([((100 : ℚ), (1000 : ℤ))] ++ [(50, 1200)])).filter
          (fun e => 1200 - 3600 < e.1)) (fun e => e.2) :=
  addAmountToWindow_cumulative_amended 3600 [(100, 1000)] 50 1200 (by norm_num)
    (by simp)

/-! ## Period-parameterized cumulative read (RedisService.getCumulativeAmounts) -/

/-- Modelled from the spec: the definition of RedisService.getCumulativeAmounts(periodSeconds)
— the period-parameterized cumulative read invoked by the scheduler's 30-minute job
(sendCumulativeAmountsToUsers(1800, '30 minutes')) and by the /cum_30m, /cum_1h and /cum_4h
bot commands — is not among the sources; only its callers are.  Spec §4.1 defines it as
"cumulative_amount(token, direction, now, period_seconds) → usd_sum: same eviction + sum but
without insertion, parameterized by period", where the eviction drops the entries with
score < now − period_seconds (step (a)) and the sum ranges over the scores in
[now − period_seconds, +∞) (step (d)).  One direction's sorted set is passed as s. -/
def cumulativeAmountSpec (s : WindowState) (now periodSeconds : ℤ) : WindowState × ℚ :=
  let windowStart := now - periodSeconds
  let s1 := s.filter (fun e => windowStart ≤ e.1)
  (s1, Finset.sum s1 (fun e => e.2))

/-- The period the scheduler's 30-minute job passes to the cumulative read:
sendCumulativeAmountsToUsers(1800, '30 minutes') in SchedulerService.start. -/
def schedulerThirtyMinutePeriodSeconds : ℤ := 1800

/-- C7: the cumulative read is parameterized by the requested period.  For a sorted set whose
entries all carry timestamps ≤ now (entries are inserted with event timestamps, reads use the
current clock), the read retains and sums exactly the entries with timestamp in
[now - period_seconds, now]; the 30-minute scheduler job passes period_seconds = 1800, not the
configured window_seconds. -/
theorem cumulativeAmountSpec_period (s : WindowState) (now periodSeconds : ℤ)
    (h : ∀ e ∈ s, e.1 ≤ now) :
    (cumulativeAmountSpec s now periodSeconds).1
        = s.filter (fun e => now - periodSeconds ≤ e.1 ∧ e.1 ≤ now)
    ∧ (cumulativeAmountSpec s now periodSeconds).2
        = Finset.sum (s.filter (fun e => now - periodSeconds ≤ e.1 ∧ e.1 ≤ now))
            (fun e => e.2)
    ∧ schedulerThirtyMinutePeriodSeconds = 1800 := by
  have hfil : s.filter (fun e => now - periodSeconds ≤ e.1)
      = s.filter (fun e => now - periodSeconds ≤ e.1 ∧ e.1 ≤ now) := by
    refine Finset.filter_congr ?_
    intro e he
    have := h e he
    constructor
    · intro h1; exact ⟨h1, this⟩
    · rintro ⟨h1, _⟩; exact h1
  refine ⟨?_, ?_, rfl⟩
  · show s.filter (fun e => now - periodSeconds ≤ e.1) = _
    rw [hfil]
  · show Finset.sum (s.filter (fun e => now - periodSeconds ≤ e.1)) (fun e => e.2) = _
    rw [hfil]

/-- Witness for the C7 theorem at a concrete two-entry state read at now = 12 with
period_seconds = 4. -/
theorem cumulativeAmountSpec_period_witness :
    (cumulativeAmountSpec ({((10 : ℤ), (100 : ℚ)), (5, 50)} : Finset (ℤ × ℚ)) 12 4).1
        = ({((10 : ℤ), (100 : ℚ)), (5, 50)} : Finset (ℤ × ℚ)).filter
            (fun e => 12 - 4 ≤ e.1 ∧ e.1 ≤ 12)
    ∧ (cumulativeAmountSpec ({((10 : ℤ), (100 : ℚ)), (5, 50)} : Finset (ℤ × ℚ)) 12 4).2
        = Finset.sum (({((10 : ℤ), (100 : ℚ)), (5, 50)} : Finset (ℤ × ℚ)).filter
            (fun e => 12 - 4 ≤ e.1 ∧ e.1 ≤ 12)) (fun e => e.2)
    ∧ schedulerThirtyMinutePeriodSeconds = 1800 :=
  cumulativeAmountSpec_period _ 12 4 (by decide)

/-! ## Event parser (WebhookService.parseTransaction) -/

/-- The fields of a Helius token transfer consumed by the pipeline
(interface TokenTransfer in src/types.ts; note it carries no decimals field). -/
structure TokenTransfer where
  fromUserAccount : String
  toUserAccount : String
  fromTokenAccount : String
  toTokenAccount : String
  tokenAmount : ℚ
  mint : String
  tokenStandard : String
deriving DecidableEq, Repr

/-- The fields of a parsed Helius webhook payload consumed by parseTransaction
(interface HeliusWebhookPayload in src/types.ts). -/
structure HeliusWebhookPayload where
  feePayer : String
  signature : String
  timestamp : ℤ
  tokenTransfers : List TokenTransfer
deriving DecidableEq, Repr

/-- Interface ParsedTransaction in src/types.ts (valueUsd is the optional field set later by
processTransfer). -/
structure ParsedTransaction where
  walletAddress : String
  tokenMint : String
  tokenAmount : ℚ
  decimals : ℕ
  transactionSignature : String
  timestamp : ℤ
  type : Dir
  valueUsd : Option ℚ
deriving DecidableEq, Repr

/-- The event the parser pushes in the BUY branch (toUserAccount == feePayer); the source
hard-codes decimals: 0 with a TODO comment. -/
def buyEvent (p : HeliusWebhookPayload) (tr : TokenTransfer) : ParsedTransaction :=
  { walletAddress := tr.toUserAccount
    tokenMint := tr.mint
    tokenAmount := tr.tokenAmount
    decimals := 0
    transactionSignature := p.signature
    timestamp := p.timestamp
    type := Dir.buy
    valueUsd := none }

/-- The event the parser pushes in the SELL branch (fromUserAccount == feePayer); decimals
is likewise hard-coded to 0. -/
def sellEvent (p : HeliusWebhookPayload) (tr : TokenTransfer) : ParsedTransaction :=
  { walletAddress := tr.fromUserAccount
    tokenMint := tr.mint
    tokenAmount := tr.tokenAmount
    decimals := 0
    transactionSignature := p.signature
    timestamp := p.timestamp
    type := Dir.sell
    valueUsd := none }

/-- WebhookService.parseTransaction: find the first token transfer whose mint equals the
configured target mint; if its toUserAccount is the fee payer push one buy event, else if
its fromUserAccount is the fee payer push one sell event, else push nothing. -/
def parseTransaction (targetTokenMint : String) (p : HeliusWebhookPayload) :
    List ParsedTransaction :=
  match p.tokenTransfers.find? (fun tr => tr.mint == targetTokenMint) with
  | none => []
  | some tr =>
    if tr.toUserAccount == p.feePayer then [buyEvent p tr]
    else if tr.fromUserAccount == p.feePayer then [sellEvent p tr]
    else []

/-- A payload with two target-mint transfers where only the second involves the fee payer. -/
def twoTransferPayload : HeliusWebhookPayload :=
  { feePayer := "F"
    signature := "sig-two"
    timestamp := 1000
    tokenTransfers :=
      [ { fromUserAccount := "X", toUserAccount := "Y", fromTokenAccount := "xa"
          toTokenAccount := "ya", tokenAmount := 1, mint := "M", tokenStandard := "Fungible" },
        { fromUserAccount := "W", toUserAccount := "F", fromTokenAccount := "wa"
          toTokenAccount := "fa", tokenAmount := 2, mint := "M", tokenStandard := "Fungible" } ] }

/-- C4 counterexample.  In twoTransferPayload exactly one of the target-mint transfers (the
second) involves the fee payer as from- or to-account, yet the parser emits no event, because
it only inspects the first target-mint transfer: the claimed iff fails. -/
theorem parseTransaction_iff_counterexample :
    (twoTransferPayload.tokenTransfers.filter
        (fun tr => tr.mint == "M"
          && (tr.fromUserAccount == "F" || tr.toUserAccount == "F"))).length = 1
    ∧ (parseTransaction "M" twoTransferPayload).length = 0 := by
  constructor <;> rfl

/-- C4 amended.  The parser emits at most one event, and emits exactly one iff the FIRST
token transfer whose mint is the target mint (when one exists) has the fee payer as its
toUserAccount or its fromUserAccount; later target-mint transfers are never consulted. -/
theorem parseTransaction_at_most_one (target : String) (p : HeliusWebhookPayload) :
    (parseTransaction target p).length ≤ 1
    ∧ ((parseTransaction target p).length = 1
        ↔ ∃ tr, p.tokenTransfers.find? (fun x => x.mint == target) = some tr
            ∧ (tr.toUserAccount = p.feePayer ∨ tr.fromUserAccount = p.feePayer)) := by
  unfold parseTransaction
  cases hfind : p.tokenTransfers.find? (fun x => x.mint == target) with
  | none => simp
  | some tr =>
    by_cases h1 : tr.toUserAccount = p.feePayer
    · simp [h1]
    · by_cases h2 : tr.fromUserAccount = p.feePayer
      · simp [h1, h2]
      · simp [h1, h2]

/-- Witness for the amended C4 theorem at twoTransferPayload. -/
theorem parseTransaction_at_most_one_witness :
    (parseTransaction "M" twoTransferPayload).length ≤ 1
    ∧ ((parseTransaction "M" twoTransferPayload).length = 1
        ↔ ∃ tr, twoTransferPayload.tokenTransfers.find? (fun x => x.mint == "M") = some tr
            ∧ (tr.toUserAccount = twoTransferPayload.feePayer
                ∨ tr.fromUserAccount = twoTransferPayload.feePayer)) :=
  parseTransaction_at_most_one "M" twoTransferPayload

/-- C5: the parser scans tokenTransfers for the first entry whose mint equals the target
mint (empty result if none); on that entry it emits one buy event when toUserAccount is the
fee payer, else one sell event when fromUserAccount is the fee payer, else nothing; and every
emitted event has decimals = 0 (the source's TokenTransfer record carries no decimals field,
so the spec's "taken from the transfer record when present" branch never applies). -/
theorem parseTransaction_scan (target : String) (p : HeliusWebhookPayload) :
    ((∀ tr ∈ p.tokenTransfers, tr.mint ≠ target) → parseTransaction target p = [])
    ∧ (∀ l₁ tr l₂, p.tokenTransfers = l₁ ++ tr :: l₂ →
        (∀ x ∈ l₁, x.mint ≠ target) → tr.mint = target →
        parseTransaction target p =
          if tr.toUserAccount = p.feePayer then [buyEvent p tr]
          else if tr.fromUserAccount = p.feePayer then [sellEvent p tr]
          else [])
    ∧ (∀ e ∈ parseTransaction target p, e.decimals = 0) := by
  refine ⟨?_, ?_, ?_⟩
  · intro hnone
    have : p.tokenTransfers.find? (fun tr => tr.mint == target) = none := by
      rw [List.find?_eq_none]
      intro x hx
      simpa using hnone x hx
    simp [parseTransaction, this]
  · intro l₁ tr l₂ hdecomp hl₁ htr
    have hfind : p.tokenTransfers.find? (fun x => x.mint == target) = some tr := by
      rw [hdecomp, List.find?_append]
      have h₁ : l₁.find? (fun x => x.mint == target) = none := by
        rw [List.find?_eq_none]
        intro x hx
        simpa using hl₁ x hx
      rw [h₁]
      simp [List.find?_cons, htr]
    unfold parseTransaction
    rw [hfind]
    by_cases h1 : tr.toUserAccount = p.feePayer
    · simp [h1]
    · by_cases h2 : tr.fromUserAccount = p.feePayer
      · simp [h1, h2]
      · simp [h1, h2]
  · intro e he
    unfold parseTransaction at he
    cases hfind : p.tokenTransfers.find? (fun x => x.mint == target) with
    | none => rw [hfind] at he; simp at he
    | some tr =>
      rw [hfind] at he
      by_cases h1 : tr.toUserAccount = p.feePayer
      · simp [h1] at he
        subst he
        rfl
      · by_cases h2 : tr.fromUserAccount = p.feePayer
        · simp [h1, h2] at he
          subst he
          rfl
        · simp [h1, h2] at he

/-- The scenario S1 transfer: from X to W1, mint M, amount 1000. -/
def s1Transfer : TokenTransfer :=
  { fromUserAccount := "X", toUserAccount := "W1", fromTokenAccount := "xt"
    toTokenAccount := "wt", tokenAmount := 1000, mint := "M", tokenStandard := "Fungible" }

/-- The scenario S1 payload: signature s1, timestamp 1700000000, feePayer W1. -/
def s1Payload : HeliusWebhookPayload :=
  { feePayer := "W1", signature := "s1", timestamp := 1700000000
    tokenTransfers := [s1Transfer] }

/-- Witness for the C5 theorem: on scenario S1 the parser emits exactly the one buy event
for wallet W1 with amount 1000 and timestamp 1700000000. -/
theorem parseTransaction_scan_witness :
    parseTransaction "M" s1Payload = [buyEvent s1Payload s1Transfer] := by
  have h := (parseTransaction_scan "M" s1Payload).2.1 [] s1Transfer [] rfl (by simp) rfl
  simpa [s1Transfer, s1Payload] using h

/-! ## Ingress adapter (POST /webhook handler, src/index.ts lines 77-110) -/

/-- One raw webhook request body, as far as the handler inspects it: whether it is an
object, which of the required fields are present, and the signature value echoed in the
success reply (meaningful when hasSignature is true). -/
structure RawPayload where
  isObject : Bool
  hasSignature : Bool
  hasTimestamp : Bool
  signature : String
deriving DecidableEq, Repr

/-- WebhookService.validatePayload: the payload must be an object and every field in
['signature', 'timestamp'] must be present. -/
def validatePayload (p : RawPayload) : Bool :=
  p.isObject && p.hasSignature && p.hasTimestamp

/-- The reply body of POST /webhook.  The invalid branch sends the error object (fields
error: 'Invalid payload structure' and message), the success branch sends the object with
fields success: true, signature: payload.signature and message: 'Webhook received and queued
for processing'.  Neither body carries processed/skipped/total counters. -/
inductive WebhookBody where
  | invalidStructure
  | queued (signature : String)
deriving DecidableEq, Repr

/-- The POST /webhook handler of src/index.ts: the request body is one payload; when
validatePayload rejects it the handler returns 400 with the error body, otherwise it starts
processWebhook detached (a rejection is only logged) and immediately returns 200 echoing the
payload's signature.  The surrounding try/catch, which turns an internal error into a 500,
is outside this model.  Returns (status code, reply body). -/
def postWebhook (p : RawPayload) : ℕ × WebhookBody :=
  if validatePayload p then (200, WebhookBody.queued p.signature)
  else (400, WebhookBody.invalidStructure)

/-- C3 counterexample.  A request whose payload is missing its signature is answered with
status 400 — not a 2xx status — and the error body: the handler rejects a malformed payload
instead of counting it as skipped, and neither reply shape reports processed, skipped or
total (the handler takes a single payload, not a batch). -/
theorem postWebhook_malformed_counterexample :
    (postWebhook ⟨true, false, true, "s5"⟩).1 = 400
    ∧ ¬(200 ≤ (postWebhook ⟨true, false, true, "s5"⟩).1
        ∧ (postWebhook ⟨true, false, true, "s5"⟩).1 < 300)
    ∧ (postWebhook ⟨true, false, true, "s5"⟩).2 = WebhookBody.invalidStructure := by
  refine ⟨rfl, ?_, rfl⟩
  intro h
  have h400 : (postWebhook ⟨true, false, true, "s5"⟩).1 = 400 := rfl
  omega

/-- C3 corrected.  The handler accepts one payload per request, not a batch; the reply is
2xx exactly when validation succeeds, a payload that is not an object or misses its
signature or timestamp is answered 400 with the error body, and a well-formed payload is
answered 200 with the queued body echoing its signature (its processing detached); no
reply reports processed/skipped/total counters. -/
theorem postWebhook_single_payload (p : RawPayload) :
    ((200 ≤ (postWebhook p).1 ∧ (postWebhook p).1 < 300) ↔ validatePayload p = true)
    ∧ ((postWebhook p).1 = 400 ↔ validatePayload p = false)
    ∧ ((postWebhook p).2 = WebhookBody.queued p.signature ↔ validatePayload p = true)
    ∧ (validatePayload p = false
        ↔ (p.isObject = false ∨ p.hasSignature = false ∨ p.hasTimestamp = false)) := by
  have hfields : validatePayload p = false
      ↔ (p.isObject = false ∨ p.hasSignature = false ∨ p.hasTimestamp = false) := by
    rcases p with ⟨io, hs, ht, sig⟩
    cases io <;> cases hs <;> cases ht <;> simp [validatePayload]
  by_cases hv : validatePayload p
  · refine ⟨?_, ?_, ?_, hfields⟩ <;> simp [postWebhook, hv]
  · have hv' : validatePayload p = false := by simpa using hv
    refine ⟨?_, ?_, ?_, hfields⟩ <;> simp [postWebhook, hv']

/-- Witness for the corrected C3 theorem at a well-formed payload with signature s1: the
reply is 2xx (namely 200) with the queued body echoing s1. -/
theorem postWebhook_single_payload_witness :
    (200 ≤ (postWebhook ⟨true, true, true, "s1"⟩).1
        ∧ (postWebhook ⟨true, true, true, "s1"⟩).1 < 300)
    ∧ (postWebhook ⟨true, true, true, "s1"⟩).2 = WebhookBody.queued "s1" :=
  ⟨(postWebhook_single_payload ⟨true, true, true, "s1"⟩).1.mpr rfl,
   (postWebhook_single_payload ⟨true, true, true, "s1"⟩).2.2.1.mpr rfl⟩

/-! ## Alert engine (WebhookService.processTransfer) -/

/-- The configuration fields processTransfer reads (src/config.ts; defaults
TELEGRAM_THRESHOLD_USD = 500, PRICE_THRESHOLD_USD = 300, SWAP_TIME_WINDOW_SECONDS = 3600,
FIVE_SELLS_THRESHOLD_USD = 300).  The source has no separate cumulative threshold:
priceThresholdUsd is used both by the single-swap rule and the cumulative rule. -/
structure TrackerConfig where
  telegramThresholdUsd : ℚ
  priceThresholdUsd : ℚ
  swapTimeWindowSeconds : ℤ
  fiveSellsThresholdUsd : ℚ
deriving Repr

/-- Enum NotificationType of src/types.ts. -/
inductive NotificationType where
  | telegramAll
  | pushoverThresholdA
  | pushoverThresholdB
  | pushover5Sells
deriving DecidableEq, Repr

/-- The Redis state the alert engine touches: for every (token mint, direction) the window
sorted set (keys buy_amount:mint / sell_amount:mint), and the cooldown key
cooldown:mint:direction:threshold_b, recorded as its absolute expiry time when set. -/
structure EngineState where
  windows : String × Dir → WindowState
  cooldownExpiry : String × Dir → Option ℤ

/-- RedisService.isInCooldown: EXISTS on the cooldown key, which is present exactly until
its expiry time. -/
def isInCooldown (s : EngineState) (k : String × Dir) (now : ℤ) : Bool :=
  match s.cooldownExpiry k with
  | some e => decide (now < e)
  | none => false

/-- WebhookService.processTransfer, given the USD value resolved by
priceService.calculateUsdValue for the event (null on oracle failure) and the wall-clock
time now used by the cooldown key's TTL.  When the USD value is null every rule is skipped.
Otherwise: (R1) if usd ≥ telegramThresholdUsd dispatch the Telegram message; (R2) if
usd ≥ priceThresholdUsd dispatch the Pushover single-swap alert; (R3) add the amount to the
window, and if the returned cumulative ≥ priceThresholdUsd and the cooldown key is absent,
dispatch the Pushover cumulative alert and set the cooldown for swapTimeWindowSeconds.
Returns the new state and the dispatched notifications in order.  (The source also copies
usd onto transfer.valueUsd for message formatting; message text is not modelled.) -/
def processTransfer (cfg : TrackerConfig) (now : ℤ) (s : EngineState)
    (t : ParsedTransaction) (usdValue : Option ℚ) : EngineState × List NotificationType :=
  match usdValue with
  | none => (s, [])
  | some usd =>
    let telegramNotifs : List NotificationType :=
      if cfg.telegramThresholdUsd ≤ usd then [NotificationType.telegramAll] else []
    let pushANotifs : List NotificationType :=
      if cfg.priceThresholdUsd ≤ usd then [NotificationType.pushoverThresholdA] else []
    let key := (t.tokenMint, t.type)
    let wres := addAmountToWindow cfg.swapTimeWindowSeconds (s.windows key) usd t.timestamp
    let s2 : EngineState := { s with windows := Function.update s.windows key wres.1 }
    if cfg.priceThresholdUsd ≤ wres.2 then
      if isInCooldown s2 key now then
        (s2, telegramNotifs ++ pushANotifs)
      else
        ({ s2 with cooldownExpiry :=
            Function.update s2.cooldownExpiry key (some (now + cfg.swapTimeWindowSeconds)) },
          telegramNotifs ++ pushANotifs ++ [NotificationType.pushoverThresholdB])
    else (s2, telegramNotifs ++ pushANotifs)

lemma pushoverThresholdB_not_mem_single_rules (c₁ c₂ : Prop) [Decidable c₁] [Decidable c₂] :
    NotificationType.pushoverThresholdB
      ∉ ((if c₁ then [NotificationType.telegramAll] else [])
          ++ (if c₂ then [NotificationType.pushoverThresholdA] else [])) := by
  split_ifs <;> simp

/-- C2: for every transfer event with a non-null USD value, (1) the engine updates the
window unconditionally — the new window for the event's (mint, direction) is exactly the
addAmountToWindow result, whatever the cooldown state; (2) the cumulative Pushover alert is
dispatched iff the returned cumulative is at least the (price) threshold and the cooldown
key is absent; (3) a dispatch sets the cooldown for swapTimeWindowSeconds; and (4) while the
cooldown key is set, no cumulative dispatch happens and the key is left untouched, so no
second cumulative dispatch for the same (mint, direction) can occur before expiry. -/
theorem processTransfer_cumulative_rule (cfg : TrackerConfig) (now : ℤ) (s : EngineState)
    (t : ParsedTransaction) (u : ℚ) (e : ℤ) :
    ((processTransfer cfg now s t (some u)).1.windows (t.tokenMint, t.type)
        = (addAmountToWindow cfg.swapTimeWindowSeconds
            (s.windows (t.tokenMint, t.type)) u t.timestamp).1)
    ∧ (NotificationType.pushoverThresholdB ∈ (processTransfer cfg now s t (some u)).2
        ↔ (cfg.priceThresholdUsd
              ≤ (addAmountToWindow cfg.swapTimeWindowSeconds
                  (s.windows (t.tokenMint, t.type)) u t.timestamp).2
            ∧ isInCooldown s (t.tokenMint, t.type) now = false))
    ∧ (NotificationType.pushoverThresholdB ∈ (processTransfer cfg now s t (some u)).2 →
        (processTransfer cfg now s t (some u)).1.cooldownExpiry (t.tokenMint, t.type)
          = some (now + cfg.swapTimeWindowSeconds))
    ∧ (s.cooldownExpiry (t.tokenMint, t.type) = some e → now < e →
        NotificationType.pushoverThresholdB ∉ (processTransfer cfg now s t (some u)).2
        ∧ (processTransfer cfg now s t (some u)).1.cooldownExpiry (t.tokenMint, t.type)
            = some e) := by
  have hcool : ∀ w, isInCooldown ⟨w, s.cooldownExpiry⟩ (t.tokenMint, t.type) now
      = isInCooldown s (t.tokenMint, t.type) now := fun _ => rfl
  refine ⟨?_, ?_, ?_, ?_⟩
  · by_cases hcum : cfg.priceThresholdUsd
        ≤ (addAmountToWindow cfg.swapTimeWindowSeconds
            (s.windows (t.tokenMint, t.type)) u t.timestamp).2
    · by_cases hcd : isInCooldown s (t.tokenMint, t.type) now
      · simp [processTransfer, hcum, hcool, hcd, Function.update_same]
      · simp [processTransfer, hcum, hcool, hcd, Function.update_same]
    · simp [processTransfer, hcum, Function.update_same]
  · by_cases hcum : cfg.priceThresholdUsd
        ≤ (addAmountToWindow cfg.swapTimeWindowSeconds
            (s.windows (t.tokenMint, t.type)) u t.timestamp).2
    · by_cases hcd : isInCooldown s (t.tokenMint, t.type) now
      · simp only [processTransfer, hcool, hcd, if_true, if_pos hcum]
        simp [pushoverThresholdB_not_mem_single_rules, hcum, hcd]
      · simp only [processTransfer, hcool, hcd, if_pos hcum, Bool.false_eq_true, if_false]
        simp [hcum, hcd]
    · simp only [processTransfer, if_neg hcum]
      simp [pushoverThresholdB_not_mem_single_rules, hcum]
  · intro hB
    by_cases hcum : cfg.priceThresholdUsd
        ≤ (addAmountToWindow cfg.swapTimeWindowSeconds
            (s.windows (t.tokenMint, t.type)) u t.timestamp).2
    · by_cases hcd : isInCooldown s (t.tokenMint, t.type) now
      · exfalso
        simp only [processTransfer, hcool, hcd, if_true, if_pos hcum] at hB
        exact pushoverThresholdB_not_mem_single_rules _ _ hB
      · simp [processTransfer, hcum, hcool, hcd, Function.update_same]
    · exfalso
      simp only [processTransfer, if_neg hcum] at hB
      exact pushoverThresholdB_not_mem_single_rules _ _ hB
  · intro hexp hlt
    have hcd : isInCooldown s (t.tokenMint, t.type) now = true := by
      simp [isInCooldown, hexp, hlt]
    by_cases hcum : cfg.priceThresholdUsd
        ≤ (addAmountToWindow cfg.swapTimeWindowSeconds
            (s.windows (t.tokenMint, t.type)) u t.timestamp).2
    · constructor
      · simp only [processTransfer, hcool, hcd, if_true, if_pos hcum]
        exact pushoverThresholdB_not_mem_single_rules _ _
      · simp only [processTransfer, hcool, hcd, if_true, if_pos hcum]
        exact hexp
    · constructor
      · simp only [processTransfer, if_neg hcum]
        exact pushoverThresholdB_not_mem_single_rules _ _
      · simp only [processTransfer, if_neg hcum]
        exact hexp

/-- The default configuration: thresholds 500 / 300, window 3600 s, 5-sells threshold 300. -/
def defaultConfig : TrackerConfig :=
  { telegramThresholdUsd := 500, priceThresholdUsd := 300
    swapTimeWindowSeconds := 3600, fiveSellsThresholdUsd := 300 }

/-- An engine state with empty windows and no cooldown set. -/
def emptyEngineState : EngineState :=
  { windows := fun _ => ∅, cooldownExpiry := fun _ => none }

/-- An engine state with empty windows and every cumulative cooldown set until t = 5000. -/
def cooldownEngineState : EngineState :=
  { windows := fun _ => ∅, cooldownExpiry := fun _ => some 5000 }

/-- The event of scenario S1, used as a concrete transfer below. -/
def demoTransfer : ParsedTransaction := buyEvent s1Payload s1Transfer

/-- Witness for C2: with the cumulative cooldown set until t = 5000 and the clock at 1000,
processing a $400 transfer dispatches no cumulative Pushover alert. -/
theorem processTransfer_cumulative_rule_witness :
    NotificationType.pushoverThresholdB
      ∉ (processTransfer defaultConfig 1000 cooldownEngineState demoTransfer (some 400)).2 :=
  ((processTransfer_cumulative_rule defaultConfig 1000 cooldownEngineState demoTransfer
      400 5000).2.2.2 rfl (by norm_num)).1

/-- C6: for every transfer event with resolved USD value u, the Telegram announcement (R1)
is dispatched iff u is at least telegramThresholdUsd and the Pushover single-swap alert (R2)
is dispatched iff u is at least priceThresholdUsd — both with ≥, independently of each other
and of all other state, so both may fire for one event. -/
theorem processTransfer_single_rules (cfg : TrackerConfig) (now : ℤ) (s : EngineState)
    (t : ParsedTransaction) (u : ℚ) :
    (NotificationType.telegramAll ∈ (processTransfer cfg now s t (some u)).2
        ↔ cfg.telegramThresholdUsd ≤ u)
    ∧ (NotificationType.pushoverThresholdA ∈ (processTransfer cfg now s t (some u)).2
        ↔ cfg.priceThresholdUsd ≤ u) := by
  by_cases h1 : cfg.telegramThresholdUsd ≤ u <;>
    by_cases h2 : cfg.priceThresholdUsd ≤ u <;>
      by_cases hcum : cfg.priceThresholdUsd
          ≤ (addAmountToWindow cfg.swapTimeWindowSeconds
              (s.windows (t.tokenMint, t.type)) u t.timestamp).2 <;>
        by_cases hcd : isInCooldown s (t.tokenMint, t.type) now <;>
          simp [processTransfer, h1, h2, hcum, hcd,
            show ∀ w, isInCooldown ⟨w, s.cooldownExpiry⟩ (t.tokenMint, t.type) now
                = isInCooldown s (t.tokenMint, t.type) now from fun _ => rfl]

/-- Witness for C6: at u = 500 — exactly the Telegram threshold, showing the comparisons
are ≥ and not > — both the Telegram message and the Pushover single-swap alert fire for the
same event. -/
theorem processTransfer_single_rules_witness :
    NotificationType.telegramAll
        ∈ (processTransfer defaultConfig 1000 emptyEngineState demoTransfer (some 500)).2
    ∧ NotificationType.pushoverThresholdA
        ∈ (processTransfer defaultConfig 1000 emptyEngineState demoTransfer (some 500)).2 :=
  ⟨(processTransfer_single_rules defaultConfig 1000 emptyEngineState demoTransfer 500).1.mpr
      (by norm_num [defaultConfig]),
   (processTransfer_single_rules defaultConfig 1000 emptyEngineState demoTransfer 500).2.mpr
      (by norm_num [defaultConfig])⟩

/-! ## Sequential-sells rule (R4) -/

/-- The per-wallet counters behind the sequential_sells: Redis keys; a missing key reads
as 0 (getSequentialSells parses a missing reply as 0). -/
abbrev SequentialSellCounters := String → ℕ

/-- RedisService.incrementSequentialSells: INCR the wallet's key (a missing key counts as 0)
and refresh its 24-hour expiry; returns the new count. -/
def incrementSequentialSells (c : SequentialSellCounters) (w : String) :
    SequentialSellCounters × ℕ :=
  (Function.update c w (c w + 1), c w + 1)

/-- RedisService.resetSequentialSells: DEL the wallet's key, after which a read returns 0. -/
def resetSequentialSells (c : SequentialSellCounters) (w : String) : SequentialSellCounters :=
  Function.update c w 0

/-- Modelled from the spec: the R4 section of the alert engine — the processTransfer code
that wires incrementSequentialSells / resetSequentialSells and the
NotificationType.pushover5Sells dispatch into the pipeline is not among the sources; only
those callee operations, the notification type, the 5-sells notification sender and the
fiveSellsThresholdUsd configuration are.  Spec §4.5 R4 (rule enabled): if direction = buy,
reset_sequential_sells(wallet); if direction = sell and usd ≥ five_sells_threshold_usd,
increment_sequential_sells(wallet), and if the new count ≥ 5, dispatch the sequential-sells
push and reset the counter. -/
def processSequentialSells (threshold : ℚ) (c : SequentialSellCounters) (w : String)
    (dir : Dir) (usd : ℚ) : SequentialSellCounters × List NotificationType :=
  match dir with
  | Dir.buy => (resetSequentialSells c w, [])
  | Dir.sell =>
    if threshold ≤ usd then
      let r := incrementSequentialSells c w
      if 5 ≤ r.2 then (resetSequentialSells r.1 w, [NotificationType.pushover5Sells])
      else (r.1, [])
    else (c, [])

/-- A run of k sells of the same qualifying USD amount by one wallet, returning the final
counters and the number of sequential-sells dispatches along the run. -/
def runQualifyingSells (threshold : ℚ) (w : String) (usd : ℚ) :
    ℕ → SequentialSellCounters → SequentialSellCounters × ℕ
  | 0, c => (c, 0)
  | k + 1, c =>
    let r := processSequentialSells threshold c w Dir.sell usd
    let rest := runQualifyingSells threshold w usd k r.1
    (rest.1, r.2.length + rest.2)

lemma runQualifyingSells_count (threshold : ℚ) (w : String) (usd : ℚ)
    (hθ : threshold ≤ usd) :
    ∀ (k : ℕ) (c : SequentialSellCounters), c w < 5 →
      (runQualifyingSells threshold w usd k c).2 = (c w + k) / 5
      ∧ (runQualifyingSells threshold w usd k c).1 w = (c w + k) % 5 := by
  intro k
  induction k with
  | zero =>
    intro c hc
    constructor
    · simp [runQualifyingSells]
      omega
    · simp [runQualifyingSells]
      omega
  | succ k ih =>
    intro c hc
    by_cases h5 : 5 ≤ c w + 1
    · have hstep : processSequentialSells threshold c w Dir.sell usd
          = (resetSequentialSells (Function.update c w (c w + 1)) w,
             [NotificationType.pushover5Sells]) := by
        simp [processSequentialSells, incrementSequentialSells, hθ, h5]
      have hzero : (resetSequentialSells (Function.update c w (c w + 1)) w) w = 0 := by
        simp [resetSequentialSells]
      have hrest := ih (resetSequentialSells (Function.update c w (c w + 1)) w)
        (by rw [hzero]; omega)
      rw [hzero] at hrest
      constructor
      · show (runQualifyingSells threshold w usd (k + 1) c).2 = _
        rw [runQualifyingSells, hstep]
        simp only [List.length_singleton]
        rw [hrest.1]
        omega
      · show (runQualifyingSells threshold w usd (k + 1) c).1 w = _
        rw [runQualifyingSells, hstep]
        rw [hrest.2]
        omega
    · have hstep : processSequentialSells threshold c w Dir.sell usd
          = (Function.update c w (c w + 1), []) := by
        simp [processSequentialSells, incrementSequentialSells, hθ, h5]
      have hval : (Function.update c w (c w + 1)) w = c w + 1 := by
        simp
      have hrest := ih (Function.update c w (c w + 1)) (by rw [hval]; omega)
      rw [hval] at hrest
      constructor
      · show (runQualifyingSells threshold w usd (k + 1) c).2 = _
        rw [runQualifyingSells, hstep]
        simp only [List.length_nil]
        rw [hrest.1]
        omega
      · show (runQualifyingSells threshold w usd (k + 1) c).1 w = _
        rw [runQualifyingSells, hstep]
        rw [hrest.2]
        omega

/-- C8: with the 5-sells rule enabled, a buy resets the wallet's counter to 0 without
dispatching; a sell with usd at least the threshold increments the counter, dispatching the
sequential-sells push and resetting the counter exactly when the new count reaches 5; a sell
below the threshold changes nothing; consequently a run of k qualifying sells from counter
value c w < 5 dispatches exactly (c w + k) / 5 times and leaves the counter at (c w + k) % 5. -/
theorem sequentialSells_rule (threshold : ℚ) (w : String) (c : SequentialSellCounters)
    (usd : ℚ) :
    (processSequentialSells threshold c w Dir.buy usd = (Function.update c w 0, []))
    ∧ (threshold ≤ usd → c w + 1 < 5 →
        processSequentialSells threshold c w Dir.sell usd
          = (Function.update c w (c w + 1), []))
    ∧ (threshold ≤ usd → 5 ≤ c w + 1 →
        (processSequentialSells threshold c w Dir.sell usd).2
            = [NotificationType.pushover5Sells]
        ∧ (processSequentialSells threshold c w Dir.sell usd).1 w = 0)
    ∧ (usd < threshold → processSequentialSells threshold c w Dir.sell usd = (c, []))
    ∧ (threshold ≤ usd → c w < 5 → ∀ k,
        (runQualifyingSells threshold w usd k c).2 = (c w + k) / 5
        ∧ (runQualifyingSells threshold w usd k c).1 w = (c w + k) % 5) := by
  refine ⟨rfl, ?_, ?_, ?_, ?_⟩
  · intro hθ h5
    simp [processSequentialSells, incrementSequentialSells, hθ]
    omega
  · intro hθ h5
    constructor
    · simp [processSequentialSells, incrementSequentialSells, hθ, h5]
    · simp [processSequentialSells, incrementSequentialSells, resetSequentialSells, hθ, h5]
  · intro hθ
    simp [processSequentialSells, not_le.mpr hθ]
  · intro hθ hc k
    exact runQualifyingSells_count threshold w usd hθ k c hc

/-- Witness for C8 at scenario S3: five qualifying $400 sells by wallet W2 from a zero
counter dispatch exactly one sequential-sells push and leave the counter at 0. -/
theorem sequentialSells_rule_witness :
    (runQualifyingSells 300 "W2" 400 5 (fun _ => 0)).2 = 1
    ∧ (runQualifyingSells 300 "W2" 400 5 (fun _ => 0)).1 "W2" = 0 := by
  have h := (sequentialSells_rule 300 "W2" (fun _ => 0) 400).2.2.2.2
    (by norm_num) (by norm_num) 5
  norm_num at h
  exact h

/-! ## Price oracle (PriceService)

A DexScreener pair's priceUsd is a string; the source first filters pairs by the string's
truthiness (non-empty) and only afterwards runs parseFloat on the single selected pair.  The
string is therefore modelled by the pair of its truthiness and its parseFloat result (none
for NaN). -/

/-- The fields of a DexScreener pair the oracle reads: priceUsd (split into truthiness of the
string and its parseFloat value) and liquidity.usd (absent allowed). -/
structure DexPair where
  priceUsdTruthy : Bool
  priceUsdVal : Option ℚ
  liquidityUsd : Option ℚ
deriving DecidableEq, Repr

/-- The liquidity a pair sorts by: liquidity?.usd || 0. -/
def liqOf (p : DexPair) : ℚ := p.liquidityUsd.getD 0

/-- The sort-descending-by-liquidity-and-take-first step of fetchPriceFromDexScreener: a
stable descending sort by liqOf puts first the earliest pair of maximal liquidity, which
this fold computes directly. -/
def bestPair (h : DexPair) (t : List DexPair) : DexPair :=
  t.foldl (fun best q => if liqOf best < liqOf q then q else best) h

/-- PriceService.fetchPriceFromDexScreener.  resp = none models a failed request or a
response without a pairs array; otherwise: return null when the array is empty, filter the
pairs by truthy priceUsd, return null when none remains, pick the most liquid remaining
pair, parseFloat its priceUsd and return null when the result is NaN or ≤ 0, else the price. -/
def fetchPriceFromDexScreener (resp : Option (List DexPair)) : Option ℚ :=
  match resp with
  | none => none
  | some pairs =>
    if pairs.isEmpty then none
    else
      match pairs.filter (fun p => p.priceUsdTruthy) with
      | [] => none
      | h :: t =>
        match (bestPair h t).priceUsdVal with
        | none => none
        | some price => if price ≤ 0 then none else some price

/-- PriceService.getTokenPrice over the single target mint's cache entry: on a hit return
the cached price; on a miss fetch, and cache the result only when it is non-null.  Returns
(returned price, cache entry afterwards). -/
def getTokenPrice (cache : Option ℚ) (resp : Option (List DexPair)) :
    Option ℚ × Option ℚ :=
  match cache with
  | some p => (some p, some p)
  | none =>
    match fetchPriceFromDexScreener resp with
    | some price => (some price, some price)
    | none => (none, none)

/-- The pair-selection rule in the words of the spec, for comparison with the source's
fetchPriceFromDexScreener: among the pairs whose priceUsd parses as a positive number, the
one with greatest USD liquidity. -/
def specSelectPrice (pairs : List DexPair) : Option ℚ :=
  match pairs.filter (fun p => p.priceUsdVal.elim false (fun q => decide (0 < q))) with
  | [] => none
  | h :: t => (bestPair h t).priceUsdVal

/-- A pair whose priceUsd string is truthy but parses as NaN, with the highest liquidity. -/
def nanPricePair : DexPair := { priceUsdTruthy := true, priceUsdVal := none
                                liquidityUsd := some 100 }

/-- A pair whose priceUsd parses as the positive price 3, with lower liquidity. -/
def validPricePair : DexPair := { priceUsdTruthy := true, priceUsdVal := some 3
                                  liquidityUsd := some 50 }

/-- C9 counterexample.  With a NaN-priced pair of liquidity 100 and a validly priced pair of
liquidity 50, the claim says the oracle returns the price of the most liquid pair whose
priceUsd parses as a positive number — 3 — but the source filters only by string
truthiness, selects the NaN pair as most liquid, fails to parse it and returns null
(caching nothing). -/
theorem fetchPrice_selection_counterexample :
    fetchPriceFromDexScreener (some [nanPricePair, validPricePair]) = none
    ∧ specSelectPrice [nanPricePair, validPricePair] = some 3
    ∧ getTokenPrice none (some [nanPricePair, validPricePair]) = (none, none) := by
  exact ⟨rfl, rfl, rfl⟩

lemma bestPair_mem_and_max (t : List DexPair) :
    ∀ h : DexPair, bestPair h t ∈ h :: t
      ∧ ∀ p ∈ h :: t, liqOf p ≤ liqOf (bestPair h t) := by
  induction t with
  | nil =>
    intro h
    refine ⟨by simp [bestPair], ?_⟩
    intro p hp
    simp at hp
    simp [bestPair, hp]
  | cons q t ih =>
    intro h
    have hstep : bestPair h (q :: t) = bestPair (if liqOf h < liqOf q then q else h) t := by
      simp [bestPair]
    have ih' := ih (if liqOf h < liqOf q then q else h)
    have hmem : bestPair h (q :: t) ∈ h :: q :: t := by
      rw [hstep]
      rcases List.mem_cons.mp ih'.1 with hcase | hcase
      · rw [hcase]
        by_cases hlt : liqOf h < liqOf q <;> simp [hlt]
      · simp [hcase]
    refine ⟨hmem, ?_⟩
    intro p hp
    have hboth : liqOf h ≤ liqOf (bestPair h (q :: t))
        ∧ liqOf q ≤ liqOf (bestPair h (q :: t)) := by
      have hhead := ih'.2 (if liqOf h < liqOf q then q else h) (List.mem_cons_self _ _)
      rw [hstep]
      by_cases hlt : liqOf h < liqOf q
      · rw [if_pos hlt] at hhead ⊢
        exact ⟨le_trans (le_of_lt hlt) hhead, hhead⟩
      · rw [if_neg hlt] at hhead ⊢
        exact ⟨hhead, le_trans (not_lt.mp hlt) hhead⟩
    rcases List.mem_cons.mp hp with rfl | hp'
    · exact hboth.1
    rcases List.mem_cons.mp hp' with rfl | hp''
    · exact hboth.2
    · rw [hstep]
      exact ih'.2 p (List.mem_cons_of_mem _ hp'')

/-- C9 amended.  The oracle filters pairs by truthy priceUsd, picks the most liquid of those
and parses only that pair (no fallback when its price is NaN or non-positive): whenever a
price is returned it is positive and is the parsed priceUsd of a truthy-priced pair of
maximal liquidity among the truthy-priced ones.  Fetch failures and rejected parses return
null and write nothing to the cache, so no non-positive price is ever stored. -/
theorem fetchPrice_amended :
    (∀ resp q, fetchPriceFromDexScreener resp = some q → 0 < q)
    ∧ (∀ resp, fetchPriceFromDexScreener resp = none → getTokenPrice none resp = (none, none))
    ∧ (∀ resp q, (getTokenPrice none resp).2 = some q → 0 < q)
    ∧ (∀ pairs q, fetchPriceFromDexScreener (some pairs) = some q →
        ∃ b, b ∈ pairs ∧ b.priceUsdTruthy = true ∧ b.priceUsdVal = some q
          ∧ ∀ p ∈ pairs, p.priceUsdTruthy = true → liqOf p ≤ liqOf b) := by
  have hpos : ∀ resp q, fetchPriceFromDexScreener resp = some q → 0 < q := by
    intro resp q hq
    cases resp with
    | none => simp [fetchPriceFromDexScreener] at hq
    | some pairs =>
      by_cases hemp : pairs.isEmpty
      · simp [fetchPriceFromDexScreener, hemp] at hq
      · cases hfil : pairs.filter (fun p => p.priceUsdTruthy) with
        | nil => simp [fetchPriceFromDexScreener, hemp, hfil] at hq
        | cons h t =>
          cases hval : (bestPair h t).priceUsdVal with
          | none => simp [fetchPriceFromDexScreener, hemp, hfil, hval] at hq
          | some price =>
            by_cases hle : price ≤ 0
            · simp [fetchPriceFromDexScreener, hemp, hfil, hval, hle] at hq
            · simp [fetchPriceFromDexScreener, hemp, hfil, hval, hle] at hq
              rw [← hq]
              exact not_le.mp hle
  refine ⟨hpos, ?_, ?_, ?_⟩
  · intro resp hnone
    simp [getTokenPrice, hnone]
  · intro resp q hq
    cases hfetch : fetchPriceFromDexScreener resp with
    | none => simp [getTokenPrice, hfetch] at hq
    | some price =>
      have : price = q := by simpa [getTokenPrice, hfetch] using hq
      exact this ▸ hpos resp price hfetch
  · intro pairs q hq
    by_cases hemp : pairs.isEmpty
    · simp [fetchPriceFromDexScreener, hemp] at hq
    · cases hfil : pairs.filter (fun p => p.priceUsdTruthy) with
      | nil => simp [fetchPriceFromDexScreener, hemp, hfil] at hq
      | cons h t =>
        cases hval : (bestPair h t).priceUsdVal with
        | none => simp [fetchPriceFromDexScreener, hemp, hfil, hval] at hq
        | some price =>
          by_cases hle : price ≤ 0
          · simp [fetchPriceFromDexScreener, hemp, hfil, hval, hle] at hq
          · have hpq : price = q := by
              simpa [fetchPriceFromDexScreener, hemp, hfil, hval, hle] using hq
            have hbest := bestPair_mem_and_max t h
            have hbmem : bestPair h t ∈ pairs.filter (fun p => p.priceUsdTruthy) := by
              rw [hfil]; exact hbest.1
            refine ⟨bestPair h t, (List.mem_filter.mp hbmem).1,
              (List.mem_filter.mp hbmem).2, hpq ▸ hval, ?_⟩
            intro p hp htruthy
            have hpfil : p ∈ pairs.filter (fun p => p.priceUsdTruthy) :=
              List.mem_filter.mpr ⟨hp, htruthy⟩
            rw [hfil] at hpfil
            exact hbest.2 p hpfil

/-- Witness for the amended C9 theorem: on a single validly priced pair the fetch returns
the price 3, which the theorem certifies positive, and caches exactly that value. -/
theorem fetchPrice_amended_witness :
    fetchPriceFromDexScreener (some [validPricePair]) = some 3
    ∧ (0 : ℚ) < 3
    ∧ getTokenPrice none (some [validPricePair]) = (some 3, some 3) :=
  ⟨rfl, fetchPrice_amended.1 (some [validPricePair]) 3 rfl, rfl⟩

/-- PriceService.calculateUsdValue: resolve the price through the cache-fronted oracle; on
null return null, else return rawAmount / 10 ^ decimals × price. -/
def calculateUsdValue (cache : Option ℚ) (resp : Option (List DexPair))
    (amount : ℚ) (decimals : ℕ) : Option ℚ :=
  match (getTokenPrice cache resp).1 with
  | none => none
  | some price => some (amount / 10 ^ decimals * price)

/-- C10: with the cache holding price p for the mint, usd_value(m, a, d) = a / 10^d · p, and
for a non-negative price it is monotone non-decreasing in the raw amount a (cached prices are
positive; see the oracle theorems). -/
theorem calculateUsdValue_monotone (resp : Option (List DexPair)) (p : ℚ) (a : ℚ) (d : ℕ)
    (hp : 0 ≤ p) :
    calculateUsdValue (some p) resp a d = some (a / 10 ^ d * p)
    ∧ ∀ a₁ a₂ v₁ v₂, a₁ ≤ a₂ →
        calculateUsdValue (some p) resp a₁ d = some v₁ →
        calculateUsdValue (some p) resp a₂ d = some v₂ → v₁ ≤ v₂ := by
  refine ⟨rfl, ?_⟩
  intro a₁ a₂ v₁ v₂ h12 h1 h2
  have e1 : v₁ = a₁ / 10 ^ d * p := by
    simpa [calculateUsdValue, getTokenPrice] using h1.symm
  have e2 : v₂ = a₂ / 10 ^ d * p := by
    simpa [calculateUsdValue, getTokenPrice] using h2.symm
  rw [e1, e2]
  gcongr

/-- Witness for C10 at scenario S4: price 5/2 cached, raw amount 10^9 at 9 decimals gives
10^9 / 10^9 · 5/2. -/
theorem calculateUsdValue_monotone_witness :
    (0 : ℚ) ≤ 5 / 2
    ∧ calculateUsdValue (some (5 / 2)) none (10 ^ 9) 9
        = some ((10 ^ 9 : ℚ) / 10 ^ 9 * (5 / 2)) :=
  ⟨by norm_num, (calculateUsdValue_monotone none (5 / 2) (10 ^ 9) 9 (by norm_num)).1⟩

end Tracker
